import Mathlib

/-!
Shallow embedding of `src/runtime/simulator.ts` of the RS-code-simulator
repository (the Roblox headless Luau simulator core), together with the
parts of `src/extension.ts` that the verified properties refer to.

Modelling conventions:
* JS strings become Lean `String` / `List Char`; the string operations used by
  the source (`trim`, `split(/\r?\n/)`, the anchored error-shape regex,
  `parseInt`, `replace(/^@/, '')`) are embedded as executable functions with
  JS semantics.
* The fengari interpreter is external to the repository; it is modelled as an
  oracle (`LuaOracle`) that, given the history of chunks loaded so far and the
  next chunk's code and load identity, reports whether `luaL_loadbuffer`
  failed, whether `lua_pcall` failed, which logging-hook calls the chunk made
  while running, and the raw error string on failure.  A host ("JS")
  exception thrown by an interpreter primitive is modelled as `Except.error`.
* `performance.now()` is modelled by a clock oracle `now : Nat → Int` indexed
  by a tick counter that counts the primitive events performed by `run`, in
  source order: tick 0 `luaL_newstate`, tick 1 `luaL_openlibs`, tick 2
  register `print`, tick 3 register `warn`, tick 4 the `runStart` clock read,
  then one tick per load-and-call stage, and finally the clock read performed
  at the taken `return` site.
-/

/-- Severity of a diagnostic (`'error' | 'warning'` in the source). -/
inductive Severity where
  | error
  | warning
deriving DecidableEq, Repr, BEq

/-- `SimulationChunk` from simulator.ts: a named unit of source text. -/
structure SimulationChunk where
  code : String
  chunkName : String
deriving DecidableEq, Repr

/-- `SimulationError` from simulator.ts (field order as in the source). -/
structure SimulationError where
  message : String
  chunkName : String
  line : Option Nat
  column : Option Nat
  stack : Option String
  severity : Severity
deriving DecidableEq, Repr

/-- `SimulationResult` from simulator.ts; `durationMs` is an integer time in
the clock-oracle model. -/
structure SimulationResult where
  success : Bool
  durationMs : Int
  errors : List SimulationError
  output : List String
deriving DecidableEq, Repr

/-- `SimulationOptions` from simulator.ts. -/
structure SimulationOptions where
  chunk : SimulationChunk
  prelude : Option SimulationChunk
  preloads : Option (List SimulationChunk)
  stubbedServices : Option (List String)
deriving DecidableEq, Repr

/-- JS `\s` / `trim` whitespace, restricted to the code points that can occur
in practice here (ASCII whitespace plus NBSP and BOM). -/
def jsWhitespace (c : Char) : Bool :=
  c = ' ' || c = '\t' || c = '\n' || c = '\r' || c = '\x0b' || c = '\x0c' ||
  c = '\u00A0' || c = '\uFEFF'

/-- JS `String.prototype.trim`: drop whitespace from both ends. -/
def jsTrim (l : List Char) : List Char :=
  ((l.dropWhile jsWhitespace).reverse.dropWhile jsWhitespace).reverse

/-- Split on every `\n` (the line then still carries a `\r` that preceded the
`\n`). -/
def splitNl (l : List Char) : List (List Char) :=
  l.foldr
    (fun c acc =>
      match acc with
      | line :: rest => if c = '\n' then [] :: line :: rest else (c :: line) :: rest
      | [] => [[c]])
    [[]]

/-- Remove one trailing `\r` (the one that belonged to a `\r\n` separator). -/
def dropTrailingCr (l : List Char) : List Char :=
  match l.reverse with
  | '\r' :: r => r.reverse
  | _ => l

/-- JS `rawMessage.split(/\r?\n/)`: a separator is `\r\n` or a bare `\n`; a
`\r` not followed by `\n` stays inside its line.  Equivalently: split on
`\n`, then strip the `\r` immediately preceding each separator, i.e. one
trailing `\r` from every piece except the last. -/
def splitLines (l : List Char) : List (List Char) :=
  let parts := splitNl l
  parts.dropLast.map dropTrailingCr ++ [parts.getLastD []]

/-- The data captured by the simulator's error-shape regex
`^(?:\[string "(?<chunk>[^"]+)"\]|(?<direct>[^:]+)):(?<line>\d+):\s*(?<message>[\s\S]*)$`:
one of the two identity groups, the line digits and the message remainder
(with the `\s*` run already consumed). -/
structure RegexMatch where
  chunk : Option (List Char)
  direct : Option (List Char)
  lineDigits : List Char
  message : List Char
deriving DecidableEq, Repr

/-- The common tail `:(?<line>\d+):\s*(?<message>[\s\S]*)$` of both regex
alternatives.  Greedy `\d+` followed by a literal `:` matches exactly the
maximal digit run (backtracking inside a digit run cannot produce `:`), and
greedy `\s*` followed by `[\s\S]*$` consumes exactly the maximal whitespace
run. -/
def parseTail (s : List Char) : Option (List Char × List Char) :=
  match s with
  | ':' :: rest =>
    let digits := rest.takeWhile Char.isDigit
    if digits.isEmpty then none
    else
      match rest.drop digits.length with
      | ':' :: rest2 => some (digits, rest2.dropWhile jsWhitespace)
      | _ => none
  | _ => none

/-- First regex alternative `\[string "(?<chunk>[^"]+)"\]` followed by the
common tail.  Greedy `[^"]+` followed by a literal `"` matches exactly the
maximal quote-free run. -/
def matchShape1 (h : List Char) : Option RegexMatch :=
  match h with
  | '[' :: 's' :: 't' :: 'r' :: 'i' :: 'n' :: 'g' :: ' ' :: '"' :: rest =>
    let chunk := rest.takeWhile (fun c => c != '"')
    if chunk.isEmpty then none
    else
      match rest.drop chunk.length with
      | '"' :: ']' :: rest2 =>
        match parseTail rest2 with
        | some (d, m) => some ⟨some chunk, none, d, m⟩
        | none => none
      | _ => none
  | _ => none

/-- Second regex alternative `(?<direct>[^:]+)` followed by the common tail.
Greedy `[^:]+` followed by a literal `:` matches exactly the maximal
colon-free run. -/
def matchShape2 (h : List Char) : Option RegexMatch :=
  let direct := h.takeWhile (fun c => c != ':')
  if direct.isEmpty then none
  else
    match parseTail (h.drop direct.length) with
    | some (d, m) => some ⟨none, some direct, d, m⟩
    | none => none

/-- `pattern.exec(headline)`: the JS engine tries the quoted-identity
alternative first and falls back to the direct alternative. -/
def execPattern (h : List Char) : Option RegexMatch :=
  (matchShape1 h).orElse (fun _ => matchShape2 h)

/-- JS `Number.parseInt` on a nonempty all-digit string. -/
def parseNatDigits (ds : List Char) : Nat :=
  ds.foldl (fun n c => n * 10 + (c.toNat - '0'.toNat)) 0

/-- JS `.replace(/^@/, '')`: strip one leading `@`. -/
def stripLeadingAt (l : List Char) : List Char :=
  match l with
  | '@' :: r => r
  | r => r

/-- The headline of a (trimmed, nonempty) raw error text: line 0 of the
split. -/
def headlineOf (trimmed : List Char) : List Char :=
  (splitLines trimmed).headD []

/-- The stack trailer: lines 1.. joined back with `\n`. -/
def stackOf (trimmed : List Char) : String :=
  String.intercalate "\n" (((splitLines trimmed).drop 1).map String.mk)

/-- `extractErrors` of simulator.ts, on the character list of the raw
message. -/
def extractErrorsCore (rawMessage : List Char) (fallbackChunk : String) :
    List SimulationError :=
  let trimmed := jsTrim rawMessage
  if trimmed.isEmpty then
    [⟨"Unknown error raised by Roblox simulator runtime.", fallbackChunk,
      none, none, none, Severity.error⟩]
  else
    let headline := headlineOf trimmed
    let stack := stackOf trimmed
    match execPattern headline with
    | none =>
      [⟨String.mk headline, fallbackChunk, none, none,
        if stack.isEmpty then none else some stack, Severity.error⟩]
    | some m =>
      let chunkName :=
        stripLeadingAt (((m.chunk).orElse (fun _ => m.direct)).getD fallbackChunk.data)
      let line := parseNatDigits m.lineDigits
      let msgTrimmed := jsTrim m.message
      let message :=
        if msgTrimmed.isEmpty then "Runtime error" else String.mk msgTrimmed
      [⟨message, String.mk chunkName, some line, none,
        if stack.isEmpty then none else some stack, Severity.error⟩]

/-- `extractErrors(rawMessage, fallbackChunk)` of simulator.ts. -/
def extractErrors (rawMessage : String) (fallbackChunk : String) :
    List SimulationError :=
  extractErrorsCore rawMessage.data fallbackChunk

/-- An interpreter value together with its display-string coercion, i.e. the
result of `luaL_tolstring` on it. -/
structure LuaValue where
  display : String
deriving DecidableEq, Repr

/-- One invocation of a registered logging hook made by running script code:
which of the two hooks was called (`warn` or bare `print`) and the values on
the interpreter stack. -/
structure LogCall where
  isWarn : Bool
  args : List LuaValue
deriving DecidableEq, Repr

/-- The body of the native logger closure built by
`registerLoggingFunction`: coerce every stack value to its display string,
join with a tab, prepend the hook's fixed prefix text, append the line to the
transcript, and return 0 values to the calling script. -/
def loggerHook (pfx : String) (output : List String) (stack : List LuaValue) :
    List String × Nat :=
  let buffer := stack.map LuaValue.display
  (output ++ [pfx ++ String.intercalate "\t" buffer], 0)

/-- Apply one hook invocation to the transcript: the `print` hook was
registered with no prefix text and the `warn` hook with `"[warn] "`. -/
def applyLog (output : List String) (c : LogCall) : List String :=
  (loggerHook (if c.isWarn then "[warn] " else "") output c.args).1

/-- Replay the hook invocations a chunk made while running. -/
def appendLogs (output : List String) (calls : List LogCall) : List String :=
  calls.foldl applyLog output

/-- Outcome of one `luaL_loadbuffer` + `lua_pcall` step, as reported by the
interpreter: a compile failure (no execution, no hook calls), a runtime
failure (with the hook calls made before the failure), or success. -/
inductive LoadCallResult where
  | loadErr (raw : String)
  | callErr (emitted : List LogCall) (raw : String)
  | ok (emitted : List LogCall)
deriving DecidableEq, Repr

/-- The fengari interpreter, abstracted: given the history of
`(code, loadIdentity)` pairs already loaded into this interpreter state and
the next chunk's code and load identity, report the outcome.  `Except.error
m` models a host (JS) exception with message `m` thrown by an interpreter
primitive, which no code in `RobloxSimulator.run` catches. -/
structure LuaOracle where
  exec : List (String × String) → String → String → Except String LoadCallResult

/-- The orchestrator state threaded through the pipeline: the tick counter of
the event model (see the module docstring), the captured transcript, and the
load history. -/
structure PipeState where
  tick : Nat
  output : List String
  history : List (String × String)
deriving DecidableEq, Repr

/-- Advance the pipeline state over one load-and-call stage. -/
def advance (st : PipeState) (code ident : String) (emitted : List LogCall) :
    PipeState :=
  ⟨st.tick + 1, appendLogs st.output emitted, st.history ++ [(code, ident)]⟩

/-- Placeholder diagnostic for `List.headD`; `extractErrors` always returns
exactly one diagnostic, so it is never used. -/
def defaultDiag (fb : String) : SimulationError :=
  ⟨"Unknown error raised by Roblox simulator runtime.", fb, none, none, none,
    Severity.error⟩

/-- `RobloxSimulator.executeChunk`: load the chunk's code under the identity
`'@' + chunkName`, then call it; on either failure push
`extractErrors(message, chunk.chunkName)`. -/
def executeChunk (oracle : LuaOracle) (st : PipeState) (chunk : SimulationChunk) :
    Except String (PipeState × List SimulationError) :=
  let ident := "@" ++ chunk.chunkName
  match oracle.exec st.history chunk.code ident with
  | .error m => .error m
  | .ok (.loadErr raw) =>
    .ok (advance st chunk.code ident [], extractErrors raw chunk.chunkName)
  | .ok (.callErr em raw) =>
    .ok (advance st chunk.code ident em, extractErrors raw chunk.chunkName)
  | .ok (.ok em) => .ok (advance st chunk.code ident em, [])

/-- `RobloxSimulator.initializePrelude`: build the synthesized stand-in
environment source from the caller-supplied service list (or the default
list), load it under the fixed identity `'@roblox-prelude'` and call it; on
either failure return `extractErrors(message, '@roblox-prelude')[0]`.
`buildPrelude` and `DEFAULT_STUBBED_SERVICES` live in `src/runtime/prelude.ts`
(not part of this core) and enter as parameters. -/
def initializePrelude (oracle : LuaOracle) (buildPrelude : List String → String)
    (defaultServices : List String) (stub : Option (List String)) (st : PipeState) :
    Except String (PipeState × Option SimulationError) :=
  let code := buildPrelude (stub.getD defaultServices)
  match oracle.exec st.history code "@roblox-prelude" with
  | .error m => .error m
  | .ok (.loadErr raw) =>
    .ok (advance st code "@roblox-prelude" [],
      some ((extractErrors raw "@roblox-prelude").headD (defaultDiag "@roblox-prelude")))
  | .ok (.callErr em raw) =>
    .ok (advance st code "@roblox-prelude" em,
      some ((extractErrors raw "@roblox-prelude").headD (defaultDiag "@roblox-prelude")))
  | .ok (.ok em) => .ok (advance st code "@roblox-prelude" em, none)

/-- One `executeChunk`-then-return-if-errors step per chunk: this is the body
both of the optional shared-`prelude` block and of the `for (const preload of
preloads ?? [])` loop of `run` (the two source blocks are identical).
`Sum.inl` carries the state to continue with; `Sum.inr` carries the state and
error list of the first failing chunk. -/
def runPreloads (oracle : LuaOracle) :
    PipeState → List SimulationChunk →
    Except String (PipeState ⊕ PipeState × List SimulationError)
  | st, [] => .ok (.inl st)
  | st, p :: rest =>
    match executeChunk oracle st p with
    | .error m => .error m
    | .ok (st2, []) => runPreloads oracle st2 rest
    | .ok (st2, errs) => .ok (.inr (st2, errs))

/-- `RobloxSimulator.run`, with the final pipeline state exposed.  Ticks 0-3
are `luaL_newstate`, `luaL_openlibs` and the two `registerLoggingFunction`
calls, all performed before `runStart = performance.now()` (the read at tick
4).  Each `return` site reads the clock once more; the state in the returned
pair counts that read, so the final clock read happened at tick
`(state.tick) - 1`.  `Except.error` is a host exception propagating out of
`run` (the source wraps the pipeline in `try`/`finally` with no `catch`). -/
def runCore (now : Nat → Int) (oracle : LuaOracle)
    (buildPrelude : List String → String) (defaultStubbedServices : List String)
    (options : SimulationOptions) :
    Except String (SimulationResult × PipeState) :=
  let runStart := now 4
  match initializePrelude oracle buildPrelude defaultStubbedServices
      options.stubbedServices ⟨5, [], []⟩ with
  | .error m => .error m
  | .ok (st1, some e) =>
    .ok (⟨false, now st1.tick - runStart, [e], st1.output⟩,
      ⟨st1.tick + 1, st1.output, st1.history⟩)
  | .ok (st1, none) =>
    match runPreloads oracle st1 options.prelude.toList with
    | .error m => .error m
    | .ok (.inr (st2, errs)) =>
      .ok (⟨false, now st2.tick - runStart, errs, st2.output⟩,
        ⟨st2.tick + 1, st2.output, st2.history⟩)
    | .ok (.inl st2) =>
      match runPreloads oracle st2 (options.preloads.getD []) with
      | .error m => .error m
      | .ok (.inr (st3, errs)) =>
        .ok (⟨false, now st3.tick - runStart, errs, st3.output⟩,
          ⟨st3.tick + 1, st3.output, st3.history⟩)
      | .ok (.inl st3) =>
        match executeChunk oracle st3 options.chunk with
        | .error m => .error m
        | .ok (st4, errs) =>
          .ok (⟨errs.isEmpty, now st4.tick - runStart, errs, st4.output⟩,
            ⟨st4.tick + 1, st4.output, st4.history⟩)

/-- `RobloxSimulator.run` as the caller sees it. -/
def RobloxSimulator.run (now : Nat → Int) (oracle : LuaOracle)
    (buildPrelude : List String → String) (defaultStubbedServices : List String)
    (options : SimulationOptions) : Except String SimulationResult :=
  (runCore now oracle buildPrelude defaultStubbedServices options).map Prod.fst

/-- The `try { result = simulator.run(...) } catch (error) { result = ... }`
recovery in `simulateDocument` (src/extension.ts): a thrown value becomes a
failed result with a single error diagnostic carrying the exception message
and the target chunk's name. -/
def simulateDocumentResult (chunk : SimulationChunk)
    (runOutcome : Except String SimulationResult) : SimulationResult :=
  match runOutcome with
  | .ok r => r
  | .error msg => ⟨false, 0, [⟨msg, chunk.chunkName, none, none, none, Severity.error⟩], []⟩

/-- The headline the interpreter produces for a runtime error in a chunk
compiled under identity `ident`: `[string "ident"]:digits: msg` (the
quoted-identity error shape). -/
def quotedErrorLine (ident digits msg : List Char) : List Char :=
  "[string \"".data ++ ident ++ '"' :: ']' :: ':' :: (digits ++ ':' :: ' ' :: msg)

/-- Interpreter oracle on which every load-and-call succeeds with no hook
calls. -/
def allOkOracle : LuaOracle := ⟨fun _ _ _ => .ok (.ok [])⟩

/-- Interpreter oracle whose first primitive throws a host exception. -/
def hostThrowOracle : LuaOracle := ⟨fun _ _ _ => .error "host failure"⟩

/-- Interpreter oracle on which every call fails with an unparseable raw
error text (so the synthesized environment chunk fails). -/
def setupFailOracle : LuaOracle := ⟨fun _ _ _ => .ok (.callErr [] "boom!")⟩

/-- Interpreter oracle on which exactly the chunk loaded as `@p2` fails,
after printing one line; every other chunk succeeds and prints one line. -/
def preload2FailOracle : LuaOracle :=
  ⟨fun _ _ ident =>
    if ident = "@p2" then .ok (.callErr [⟨false, [⟨"from-p2"⟩]⟩] "p2:1: boom")
    else .ok (.ok [⟨false, [⟨"ran " ++ ident⟩]⟩])⟩

/-- A concrete stand-in for `buildPrelude` from prelude.ts. -/
def bpW : List String → String := fun _ => "PRELUDE-SRC"

/-- A concrete target chunk. -/
def targetW : SimulationChunk := ⟨"print(1)", "main"⟩

/-- Minimal run options: target only. -/
def optsW : SimulationOptions := ⟨targetW, none, none, none⟩

/-- Three preload chunks, of which `p2` fails under `preload2FailOracle`. -/
def preloadsW : List SimulationChunk := [⟨"c1", "p1"⟩, ⟨"c2", "p2"⟩, ⟨"c3", "p3"⟩]

/-- Run options with the three preloads. -/
def optsP : SimulationOptions := ⟨targetW, none, some preloadsW, none⟩

/-- Interpreter oracle on which the setup call fails with a raw error text
in the quoted-identity shape for the synthesized prelude chunk. -/
def setupFailMatchedOracle : LuaOracle :=
  ⟨fun _ _ _ => .ok (.callErr [] "[string \"@roblox-prelude\"]:1: oops")⟩

theorem extractErrors_singleton (raw fb : String) :
    ∃ d, extractErrors raw fb = [d] ∧ d.severity = Severity.error := by
  unfold extractErrors extractErrorsCore
  dsimp only
  split
  · exact ⟨_, rfl, rfl⟩
  · split
    · exact ⟨_, rfl, rfl⟩
    · exact ⟨_, rfl, rfl⟩

theorem executeChunk_ok_shape (oracle : LuaOracle) (st : PipeState)
    (c : SimulationChunk) (st2 : PipeState) (errs : List SimulationError)
    (h : executeChunk oracle st c = .ok (st2, errs)) :
    st2.history = st.history ++ [(c.code, "@" ++ c.chunkName)] ∧
    st2.tick = st.tick + 1 ∧
    (errs = [] ∨ ∃ raw, errs = extractErrors raw c.chunkName) := by
  unfold executeChunk at h
  dsimp only at h
  split at h
  · exact absurd h (by simp)
  · cases h
    exact ⟨rfl, rfl, Or.inr ⟨_, rfl⟩⟩
  · cases h
    exact ⟨rfl, rfl, Or.inr ⟨_, rfl⟩⟩
  · cases h
    exact ⟨rfl, rfl, Or.inl rfl⟩

theorem initializePrelude_ok_shape (oracle : LuaOracle)
    (bp : List String → String) (ds : List String) (stub : Option (List String))
    (st st2 : PipeState) (oe : Option SimulationError)
    (h : initializePrelude oracle bp ds stub st = .ok (st2, oe)) :
    st2.history = st.history ++ [(bp (stub.getD ds), "@roblox-prelude")] ∧
    st2.tick = st.tick + 1 ∧
    (∀ e, oe = some e → e.severity = Severity.error) := by
  unfold initializePrelude at h
  dsimp only at h
  split at h
  · exact absurd h (by simp)
  · cases h
    refine ⟨rfl, rfl, fun e he => ?_⟩
    cases he
    obtain ⟨d, hd, hsev⟩ := extractErrors_singleton _ "@roblox-prelude"
    rw [hd]
    exact hsev
  · cases h
    refine ⟨rfl, rfl, fun e he => ?_⟩
    cases he
    obtain ⟨d, hd, hsev⟩ := extractErrors_singleton _ "@roblox-prelude"
    rw [hd]
    exact hsev
  · cases h
    exact ⟨rfl, rfl, fun e he => by cases he⟩

theorem runPreloads_inl_shape (oracle : LuaOracle) :
    ∀ (l : List SimulationChunk) (st st2 : PipeState),
      runPreloads oracle st l = .ok (.inl st2) →
      st2.history = st.history ++ l.map (fun p => (p.code, "@" ++ p.chunkName)) ∧
      st.tick ≤ st2.tick
  | [], st, st2, h => by
    cases h
    exact ⟨by simp, le_refl _⟩
  | p :: rest, st, st2, h => by
    unfold runPreloads at h
    split at h
    · exact absurd h (by simp)
    · rename_i st3 hexec
      obtain ⟨hh, ht, _⟩ := executeChunk_ok_shape _ _ _ _ _ hexec
      obtain ⟨hh2, ht2⟩ := runPreloads_inl_shape oracle rest st3 st2 h
      refine ⟨?_, ?_⟩
      · rw [hh2, hh]
        simp
      · omega
    · exact absurd h (by simp)

theorem runPreloads_inr_shape (oracle : LuaOracle) :
    ∀ (l : List SimulationChunk) (st st2 : PipeState) (errs : List SimulationError),
      runPreloads oracle st l = .ok (.inr (st2, errs)) →
      (∃ raw nm, errs = extractErrors raw nm ∧ errs ≠ []) ∧ st.tick ≤ st2.tick
  | [], st, st2, errs, h => by
    cases h
  | p :: rest, st, st2, errs, h => by
    unfold runPreloads at h
    split at h
    · exact absurd h (by simp)
    · rename_i st3 hexec
      obtain ⟨hh, ht, _⟩ := executeChunk_ok_shape _ _ _ _ _ hexec
      obtain ⟨he, ht2⟩ := runPreloads_inr_shape oracle rest st3 st2 errs h
      exact ⟨he, by omega⟩
    · rename_i st3 errs2 hne hexec
      cases h
      obtain ⟨hh, ht, hcases⟩ := executeChunk_ok_shape _ _ _ _ _ hexec
      rcases hcases with hnil | ⟨raw, hraw⟩
      · exact absurd hnil hne
      · exact ⟨⟨raw, p.chunkName, hraw, fun hc => hne hc⟩, by omega⟩

theorem runPreloads_append (oracle : LuaOracle) :
    ∀ (l1 l2 : List SimulationChunk) (st st2 : PipeState),
      runPreloads oracle st l1 = .ok (.inl st2) →
      runPreloads oracle st (l1 ++ l2) = runPreloads oracle st2 l2
  | [], l2, st, st2, h => by
    cases h
    rfl
  | p :: rest, l2, st, st2, h => by
    unfold runPreloads at h
    split at h
    · exact absurd h (by simp)
    · rename_i st3 hexec
      rw [List.cons_append]
      conv_lhs => simp only [runPreloads]
      rw [hexec]
      exact runPreloads_append oracle rest l2 st3 st2 h
    · exact absurd h (by simp)

theorem executeChunk_total (oracle : LuaOracle)
    (htot : ∀ hist code ident, ∃ v, oracle.exec hist code ident = .ok v)
    (st : PipeState) (c : SimulationChunk) :
    ∃ p, executeChunk oracle st c = .ok p := by
  obtain ⟨v, hv⟩ := htot st.history c.code ("@" ++ c.chunkName)
  unfold executeChunk
  dsimp only
  rw [hv]
  cases v <;> exact ⟨_, rfl⟩

theorem initializePrelude_total (oracle : LuaOracle)
    (bp : List String → String) (ds : List String) (stub : Option (List String))
    (htot : ∀ hist code ident, ∃ v, oracle.exec hist code ident = .ok v)
    (st : PipeState) :
    ∃ p, initializePrelude oracle bp ds stub st = .ok p := by
  obtain ⟨v, hv⟩ := htot st.history (bp (stub.getD ds)) "@roblox-prelude"
  unfold initializePrelude
  dsimp only
  rw [hv]
  cases v <;> exact ⟨_, rfl⟩

theorem runPreloads_total (oracle : LuaOracle)
    (htot : ∀ hist code ident, ∃ v, oracle.exec hist code ident = .ok v) :
    ∀ (l : List SimulationChunk) (st : PipeState),
      ∃ p, runPreloads oracle st l = .ok p
  | [], st => ⟨_, rfl⟩
  | p :: rest, st => by
    obtain ⟨⟨st2, errs⟩, hexec⟩ := executeChunk_total oracle htot st p
    unfold runPreloads
    rw [hexec]
    cases errs with
    | nil => exact runPreloads_total oracle htot rest st2
    | cons e es => exact ⟨_, rfl⟩

theorem runCore_ok_shape (now : Nat → Int) (oracle : LuaOracle)
    (bp : List String → String) (ds : List String) (opts : SimulationOptions)
    (r : SimulationResult) (st : PipeState)
    (h : runCore now oracle bp ds opts = .ok (r, st)) :
    r.success = r.errors.isEmpty ∧
    (∀ e ∈ r.errors, e.severity = Severity.error) ∧
    r.errors.length ≤ 1 ∧
    r.durationMs = now (st.tick - 1) - now 4 ∧
    6 ≤ st.tick - 1 := by
  unfold runCore at h
  dsimp only at h
  split at h
  · exact absurd h (by simp)
  · rename_i st1 e hinit
    cases h
    obtain ⟨hh, ht, hsev⟩ := initializePrelude_ok_shape _ _ _ _ _ _ _ hinit
    refine ⟨rfl, ?_, by simp, by dsimp only; simp, by dsimp only at ht ⊢; omega⟩
    intro e2 he2
    simp at he2
    rw [he2]
    exact hsev e rfl
  · rename_i st1 hinit
    obtain ⟨hh1, ht1, _⟩ := initializePrelude_ok_shape _ _ _ _ _ _ _ hinit
    split at h
    · exact absurd h (by simp)
    · rename_i st2 errs hpl
      cases h
      obtain ⟨⟨raw, nm, herrs, hne⟩, ht2⟩ := runPreloads_inr_shape _ _ _ _ _ hpl
      obtain ⟨d, hd, hsev⟩ := extractErrors_singleton raw nm
      rw [hd] at herrs
      subst herrs
      refine ⟨rfl, ?_, by simp, by dsimp only; simp,
        by dsimp only at ht1 ht2 ⊢; omega⟩
      intro e2 he2
      simp at he2
      rw [he2]
      exact hsev
    · rename_i st2 hpl
      obtain ⟨hh2, ht2⟩ := runPreloads_inl_shape _ _ _ _ hpl
      split at h
      · exact absurd h (by simp)
      · rename_i st3 errs hps
        cases h
        obtain ⟨⟨raw, nm, herrs, hne⟩, ht3⟩ := runPreloads_inr_shape _ _ _ _ _ hps
        obtain ⟨d, hd, hsev⟩ := extractErrors_singleton raw nm
        rw [hd] at herrs
        subst herrs
        refine ⟨rfl, ?_, by simp, by dsimp only; simp,
          by dsimp only at ht1 ht2 ht3 ⊢; omega⟩
        intro e2 he2
        simp at he2
        rw [he2]
        exact hsev
      · rename_i st3 hps
        obtain ⟨hh3, ht3⟩ := runPreloads_inl_shape _ _ _ _ hps
        split at h
        · exact absurd h (by simp)
        · rename_i st4 errs hexec
          cases h
          obtain ⟨hh4, ht4, hcases⟩ := executeChunk_ok_shape _ _ _ _ _ hexec
          refine ⟨rfl, ?_, ?_, by dsimp only; simp,
            by dsimp only at ht1 ht2 ht3 ht4 ⊢; omega⟩
          · intro e2 he2
            rcases hcases with hnil | ⟨raw, hraw⟩
            · rw [hnil] at he2
              cases he2
            · rw [hraw] at he2
              obtain ⟨d, hd, hsev⟩ := extractErrors_singleton raw opts.chunk.chunkName
              rw [hd] at he2
              simp at he2
              rw [he2]
              exact hsev
          · rcases hcases with hnil | ⟨raw, hraw⟩
            · simp [hnil]
            · obtain ⟨d, hd, hsev⟩ := extractErrors_singleton raw opts.chunk.chunkName
              rw [hraw, hd]
              simp

/-- C5: the Error Translator round-trips the two known error shapes — the
quoted-identity form yields chunk `X`, line 12, message `boom`; the direct
form yields chunk `myfile.luau`, line 3, message `nil index` — and the empty
string yields exactly one generic unknown-error diagnostic carrying the
fallback identity. -/
theorem translator_round_trip :
    extractErrors "[string \"X\"]:12: boom" "fb" =
      [⟨"boom", "X", some 12, none, none, Severity.error⟩] ∧
    extractErrors "myfile.luau:3: nil index" "fb" =
      [⟨"nil index", "myfile.luau", some 3, none, none, Severity.error⟩] ∧
    extractErrors "" "fallback-id" =
      [⟨"Unknown error raised by Roblox simulator runtime.", "fallback-id",
        none, none, none, Severity.error⟩] :=
  ⟨by decide, by decide, by decide⟩

/-- C6: the Error Translator always returns exactly one diagnostic, and when
the headline matches neither known shape the diagnostic carries the full
headline verbatim as message, the remaining lines as the stack field when
present, the fallback identity as chunkName, and severity error. -/
theorem translator_total_and_fallback (raw fb : String) :
    (extractErrors raw fb).length = 1 ∧
    (jsTrim raw.data ≠ [] →
      execPattern (headlineOf (jsTrim raw.data)) = none →
      extractErrors raw fb =
        [⟨String.mk (headlineOf (jsTrim raw.data)), fb, none, none,
          if (stackOf (jsTrim raw.data)).isEmpty then none
          else some (stackOf (jsTrim raw.data)), Severity.error⟩]) := by
  constructor
  · obtain ⟨d, hd, _⟩ := extractErrors_singleton raw fb
    rw [hd]
    rfl
  · intro hne hnm
    have hfalse : (jsTrim raw.data).isEmpty = false :=
      List.isEmpty_eq_false.mpr hne
    unfold extractErrors extractErrorsCore
    dsimp only
    rw [hfalse]
    rw [hnm]
    rfl

/-- Witness for C6 at the concrete unmatched input `"boom\ntrace"`. -/
theorem translator_total_and_fallback_witness :
    (extractErrors "boom\ntrace" "fb").length = 1 ∧
    extractErrors "boom\ntrace" "fb" =
      [⟨"boom", "fb", none, none, some "trace", Severity.error⟩] := by
  have h := translator_total_and_fallback "boom\ntrace" "fb"
  refine ⟨h.1, ?_⟩
  rw [h.2 (by decide) (by decide)]
  decide

/-- C10: in the Translator's no-shape-match fallback branch the fallback
chunk identity is used verbatim with no leading-sigil stripping: a setup
failure of the synthesized environment chunk whose raw error text matches
neither known shape yields a diagnostic whose chunkName is exactly
`@roblox-prelude` including the sigil, whereas a setup failure whose
headline matches the quoted-identity shape yields `roblox-prelude` with the
sigil stripped. -/
theorem fallback_identity_verbatim :
    initializePrelude setupFailOracle bpW [] none ⟨5, [], []⟩ =
      .ok (⟨6, [], [("PRELUDE-SRC", "@roblox-prelude")]⟩,
        some ⟨"boom!", "@roblox-prelude", none, none, none, Severity.error⟩) ∧
    initializePrelude setupFailMatchedOracle bpW [] none ⟨5, [], []⟩ =
      .ok (⟨6, [], [("PRELUDE-SRC", "@roblox-prelude")]⟩,
        some ⟨"oops", "roblox-prelude", some 1, none, none, Severity.error⟩) :=
  ⟨rfl, rfl⟩

/-- C2: for every run that returns, `success` is true iff the errors list
contains zero diagnostics of severity error, and every failed run contains
at least one diagnostic of severity error. -/
theorem success_iff_no_error_diagnostics (now : Nat → Int) (oracle : LuaOracle)
    (bp : List String → String) (ds : List String) (opts : SimulationOptions)
    (r : SimulationResult) (st : PipeState)
    (h : runCore now oracle bp ds opts = .ok (r, st)) :
    (r.success = true ↔
      (r.errors.filter (fun e => e.severity == Severity.error)).length = 0) ∧
    (r.success = false → ∃ e ∈ r.errors, e.severity = Severity.error) := by
  obtain ⟨hs, hsev, hlen, _, _⟩ := runCore_ok_shape _ _ _ _ _ _ _ h
  have hfilter : r.errors.filter (fun e => e.severity == Severity.error) = r.errors := by
    apply List.filter_eq_self.mpr
    intro e he
    rw [hsev e he]
    rfl
  constructor
  · rw [hfilter, hs]
    cases r.errors with
    | nil => simp
    | cons e es => simp
  · intro hfalse
    rw [hs] at hfalse
    cases herr : r.errors with
    | nil =>
      rw [herr] at hfalse
      simp at hfalse
    | cons e es =>
      refine ⟨e, List.mem_cons_self e es, ?_⟩
      exact hsev e (by rw [herr]; exact List.mem_cons_self e es)

/-- Witness for C2 at a concrete fully-successful run. -/
theorem success_iff_no_error_diagnostics_witness :
    ((⟨true, 3, [], []⟩ : SimulationResult).success = true ↔
      (((⟨true, 3, [], []⟩ : SimulationResult).errors.filter
        (fun e => e.severity == Severity.error)).length = 0)) ∧
    ((⟨true, 3, [], []⟩ : SimulationResult).success = false →
      ∃ e ∈ (⟨true, 3, [], []⟩ : SimulationResult).errors,
        e.severity = Severity.error) :=
  success_iff_no_error_diagnostics (fun n => (n : Int)) allOkOracle bpW [] optsW
    ⟨true, 3, [], []⟩
    ⟨8, [], [("PRELUDE-SRC", "@roblox-prelude"), ("print(1)", "@main")]⟩ rfl

/-- C9: the errors list of every returned result has at most one element:
each failing stage contributes exactly one diagnostic and terminates the
pipeline. -/
theorem errors_at_most_one (now : Nat → Int) (oracle : LuaOracle)
    (bp : List String → String) (ds : List String) (opts : SimulationOptions)
    (r : SimulationResult) (st : PipeState)
    (h : runCore now oracle bp ds opts = .ok (r, st)) :
    r.errors.length ≤ 1 :=
  (runCore_ok_shape _ _ _ _ _ _ _ h).2.2.1

/-- Witness for C9 at a concrete failing run (preload 2 of 3 fails). -/
theorem errors_at_most_one_witness :
    (⟨false, 4,
      [⟨"boom", "p2", some 1, none, none, Severity.error⟩],
      ["ran @roblox-prelude", "ran @p1", "from-p2"]⟩ :
        SimulationResult).errors.length ≤ 1 :=
  errors_at_most_one (fun n => (n : Int)) preload2FailOracle bpW [] optsP
    ⟨false, 4, [⟨"boom", "p2", some 1, none, none, Severity.error⟩],
      ["ran @roblox-prelude", "ran @p1", "from-p2"]⟩
    ⟨9, ["ran @roblox-prelude", "ran @p1", "from-p2"],
      [("PRELUDE-SRC", "@roblox-prelude"), ("c1", "@p1"), ("c2", "@p2")]⟩ rfl

/-- Counterexample to C4: `runStart` is read only at tick 4, after
interpreter creation (tick 0), standard-library installation (tick 1) and
hook registration (ticks 2, 3).  On a minimal fully-successful run the final
clock read happens at tick 7 (the returned state counts it, tick 8), so with
the clock `n ↦ n` the code reports `durationMs = now 7 - now 4 = 3`, whereas
measuring from immediately before step 1 (interpreter creation, tick 0)
would give `now 7 - now 0 = 7`. -/
theorem durationMs_counterexample :
    (runCore (fun n => (n : Int)) allOkOracle bpW [] optsW).map
      (fun p => (p.1.durationMs, p.2.tick)) = .ok ((3 : Int), 8) ∧
    (3 : Int) ≠ 7 - 0 :=
  ⟨rfl, by decide⟩

/-- C4 amended: `durationMs` equals the clock read at the taken return site
minus the clock read at tick 4, i.e. it is measured from immediately after
interpreter creation, standard-library installation and logging-hook
registration (immediately before the environment-setup stage) to immediately
before returning, inclusive of every stage actually executed. -/
theorem durationMs_measured_from_before_setup (now : Nat → Int)
    (oracle : LuaOracle) (bp : List String → String) (ds : List String)
    (opts : SimulationOptions) (r : SimulationResult) (st : PipeState)
    (h : runCore now oracle bp ds opts = .ok (r, st)) :
    r.durationMs = now (st.tick - 1) - now 4 ∧ 6 ≤ st.tick - 1 :=
  ⟨(runCore_ok_shape _ _ _ _ _ _ _ h).2.2.2.1,
   (runCore_ok_shape _ _ _ _ _ _ _ h).2.2.2.2⟩

/-- Witness for the amended C4 at a concrete run. -/
theorem durationMs_measured_from_before_setup_witness :
    (⟨true, 3, [], []⟩ : SimulationResult).durationMs =
      (fun n => (n : Int)) ((⟨8, [], [("PRELUDE-SRC", "@roblox-prelude"),
        ("print(1)", "@main")]⟩ : PipeState).tick - 1) - (fun n => (n : Int)) 4 ∧
    6 ≤ (⟨8, [], [("PRELUDE-SRC", "@roblox-prelude"),
        ("print(1)", "@main")]⟩ : PipeState).tick - 1 :=
  durationMs_measured_from_before_setup (fun n => (n : Int)) allOkOracle bpW []
    optsW ⟨true, 3, [], []⟩
    ⟨8, [], [("PRELUDE-SRC", "@roblox-prelude"), ("print(1)", "@main")]⟩ rfl

/-- Counterexample to C1: `run` wraps the pipeline in `try`/`finally` with no
`catch`, so a host exception thrown by an interpreter primitive while
orchestrating propagates out of `run` instead of being captured as a
diagnostic in a returned result. -/
theorem run_never_throws_counterexample :
    RobloxSimulator.run (fun n => (n : Int)) hostThrowOracle bpW [] optsW =
      .error "host failure" := rfl

/-- C1 amended: `run` returns a `SimulationResult` normally whenever the
interpreter primitives themselves return normally (every chunk load or call
failure is captured as a diagnostic in the returned errors list); an
unexpected host infrastructure exception propagates out of `run` and is
caught by the caller `simulateDocument`, which converts it into a returned
failed result with a single error diagnostic carrying the exception message. -/
theorem run_total_and_caller_catches (now : Nat → Int) (oracle : LuaOracle)
    (bp : List String → String) (ds : List String) (opts : SimulationOptions)
    (htot : ∀ hist code ident, ∃ v, oracle.exec hist code ident = .ok v) :
    (RobloxSimulator.run now oracle bp ds opts).isOk = true ∧
    (∀ msg chunk, simulateDocumentResult chunk (.error msg) =
      ⟨false, 0, [⟨msg, chunk.chunkName, none, none, none, Severity.error⟩], []⟩) ∧
    (∀ res chunk, simulateDocumentResult chunk (.ok res) = res) := by
  refine ⟨?_, fun _ _ => rfl, fun _ _ => rfl⟩
  obtain ⟨⟨st1, oe⟩, hinit⟩ :=
    initializePrelude_total oracle bp ds opts.stubbedServices htot ⟨5, [], []⟩
  unfold RobloxSimulator.run runCore
  dsimp only
  rw [hinit]
  cases oe with
  | some e => rfl
  | none =>
    dsimp only
    obtain ⟨p1, hp1⟩ := runPreloads_total oracle htot opts.prelude.toList st1
    rw [hp1]
    cases p1 with
    | inr p => obtain ⟨p3, p4⟩ := p; rfl
    | inl st2 =>
      dsimp only
      obtain ⟨p2, hp2⟩ := runPreloads_total oracle htot (opts.preloads.getD []) st2
      rw [hp2]
      cases p2 with
      | inr p => obtain ⟨p3, p4⟩ := p; rfl
      | inl st3 =>
        dsimp only
        obtain ⟨⟨st4, errs⟩, hexec⟩ := executeChunk_total oracle htot st3 opts.chunk
        rw [hexec]
        rfl

/-- Witness for the amended C1 at a concrete total oracle and a concrete
caught exception. -/
theorem run_total_and_caller_catches_witness :
    (RobloxSimulator.run (fun n => (n : Int)) allOkOracle bpW [] optsW).isOk = true ∧
    simulateDocumentResult targetW (.error "host failure") =
      ⟨false, 0, [⟨"host failure", "main", none, none, none, Severity.error⟩], []⟩ ∧
    simulateDocumentResult targetW (.ok ⟨true, 3, [], []⟩) = ⟨true, 3, [], []⟩ := by
  have h := run_total_and_caller_catches (fun n => (n : Int)) allOkOracle bpW []
    optsW (fun _ _ _ => ⟨_, rfl⟩)
  exact ⟨h.1, h.2.1 "host failure" targetW, h.2.2 ⟨true, 3, [], []⟩ targetW⟩

/-- C7: a script call of the bare logging hook with values `v1 … vn` appends
exactly one line equal to the display-string coercions joined with a tab and
no prefix text; the warning hook appends the identical line prefixed with
`[warn] `; both hooks return 0 values to the calling script.  The last two
conjuncts state the same for the transcript replay used by the run
pipeline. -/
theorem logging_hooks_spec (vs : List LuaValue) (out : List String) :
    loggerHook "" out vs =
      (out ++ [String.intercalate "\t" (vs.map LuaValue.display)], 0) ∧
    loggerHook "[warn] " out vs =
      (out ++ ["[warn] " ++ String.intercalate "\t" (vs.map LuaValue.display)], 0) ∧
    appendLogs out [⟨false, vs⟩] =
      out ++ [String.intercalate "\t" (vs.map LuaValue.display)] ∧
    appendLogs out [⟨true, vs⟩] =
      out ++ ["[warn] " ++ String.intercalate "\t" (vs.map LuaValue.display)] := by
  have hemp : ∀ s : String, "" ++ s = s := by
    intro s
    cases s with
    | mk d => rfl
  refine ⟨?_, rfl, ?_, rfl⟩
  · simp only [loggerHook]
    rw [hemp]
  · show (loggerHook "" out vs).1 = _
    simp only [loggerHook]
    rw [hemp]

/-- C3: the pipeline runs environment setup, then the optional shared
bootstrap chunk, then the preloads in supplied order, then the target chunk,
and short-circuits at the first stage producing a diagnostic.  Conjunct 1:
if environment setup fails, the result is determined by the setup stage
alone — no later stage runs, for every bootstrap, preload list and target.
Conjunct 2: if preload `badB` (preceded by `preB`) fails, the result carries
exactly that stage's diagnostics and the output accumulated up to it, for
every later preload list `restB` and target `cB` — nothing in the result
originates from them.  Conjunct 3: on a fully successful run the load
history is exactly setup, bootstrap, preloads, target, in order. -/
theorem pipeline_order_and_short_circuit
    (now : Nat → Int) (bp : List String → String) (ds : List String)
    (oA : LuaOracle) (ssA : Option (List String)) (stA : PipeState)
    (eA : SimulationError) (cA : SimulationChunk) (plA : Option SimulationChunk)
    (psA : Option (List SimulationChunk))
    (oB : LuaOracle) (ssB : Option (List String)) (stB1 stB2 stB3 stB4 : PipeState)
    (plB : Option SimulationChunk) (preB restB : List SimulationChunk)
    (badB cB : SimulationChunk) (errsB : List SimulationError)
    (oC : LuaOracle) (ssC : Option (List String)) (stC1 stC2 stC3 stC4 : PipeState)
    (plC : Option SimulationChunk) (psC : List SimulationChunk) (cC : SimulationChunk) :
    (initializePrelude oA bp ds ssA ⟨5, [], []⟩ = .ok (stA, some eA) →
      runCore now oA bp ds ⟨cA, plA, psA, ssA⟩ =
        .ok (⟨false, now stA.tick - now 4, [eA], stA.output⟩,
          ⟨stA.tick + 1, stA.output, stA.history⟩)) ∧
    (initializePrelude oB bp ds ssB ⟨5, [], []⟩ = .ok (stB1, none) →
      runPreloads oB stB1 plB.toList = .ok (.inl stB2) →
      runPreloads oB stB2 preB = .ok (.inl stB3) →
      executeChunk oB stB3 badB = .ok (stB4, errsB) →
      errsB ≠ [] →
      runCore now oB bp ds ⟨cB, plB, some (preB ++ badB :: restB), ssB⟩ =
        .ok (⟨false, now stB4.tick - now 4, errsB, stB4.output⟩,
          ⟨stB4.tick + 1, stB4.output, stB4.history⟩)) ∧
    (initializePrelude oC bp ds ssC ⟨5, [], []⟩ = .ok (stC1, none) →
      runPreloads oC stC1 plC.toList = .ok (.inl stC2) →
      runPreloads oC stC2 psC = .ok (.inl stC3) →
      executeChunk oC stC3 cC = .ok (stC4, []) →
      runCore now oC bp ds ⟨cC, plC, some psC, ssC⟩ =
        .ok (⟨true, now stC4.tick - now 4, [], stC4.output⟩,
          ⟨stC4.tick + 1, stC4.output, stC4.history⟩) ∧
      stC4.history = (bp (ssC.getD ds), "@roblox-prelude") ::
        (plC.toList ++ psC ++ [cC]).map (fun p => (p.code, "@" ++ p.chunkName))) := by
  refine ⟨?_, ?_, ?_⟩
  · intro hinit
    unfold runCore
    dsimp only
    rw [hinit]
  · intro hinit hpl hpre hbad hne
    unfold runCore
    dsimp only
    rw [hinit]
    dsimp only
    rw [hpl]
    dsimp only
    have hx := runPreloads_append oB preB (badB :: restB) stB2 stB3 hpre
    have hy : runPreloads oB stB3 (badB :: restB) = .ok (.inr (stB4, errsB)) := by
      cases errsB with
      | nil => exact absurd rfl hne
      | cons e es =>
        conv_lhs => simp only [runPreloads]
        rw [hbad]
    rw [Option.getD_some, hx.trans hy]
  · intro hinit hpl hps hexec
    constructor
    · unfold runCore
      dsimp only
      rw [hinit]
      dsimp only
      rw [hpl]
      dsimp only
      rw [Option.getD_some, hps]
      dsimp only
      rw [hexec]
      rfl
    · obtain ⟨hh1, _, _⟩ := initializePrelude_ok_shape _ _ _ _ _ _ _ hinit
      obtain ⟨hh2, _⟩ := runPreloads_inl_shape _ _ _ _ hpl
      obtain ⟨hh3, _⟩ := runPreloads_inl_shape _ _ _ _ hps
      obtain ⟨hh4, _, _⟩ := executeChunk_ok_shape _ _ _ _ _ hexec
      rw [hh4, hh3, hh2, hh1]
      simp

/-- Witness for C3: setup failure short-circuits (conjunct 1), preload 2 of 3
failing short-circuits with no output or diagnostic from preload 3 or the
target (conjunct 2), and a fully successful run loads setup, bootstrap,
preload, target in order (conjunct 3), all at concrete oracles. -/
theorem pipeline_order_and_short_circuit_witness :
    runCore (fun n => (n : Int)) setupFailOracle bpW []
        ⟨targetW, none, some preloadsW, none⟩ =
      .ok (⟨false, 2, [⟨"boom!", "@roblox-prelude", none, none, none, Severity.error⟩], []⟩,
        ⟨7, [], [("PRELUDE-SRC", "@roblox-prelude")]⟩) ∧
    runCore (fun n => (n : Int)) preload2FailOracle bpW [] optsP =
      .ok (⟨false, 4, [⟨"boom", "p2", some 1, none, none, Severity.error⟩],
          ["ran @roblox-prelude", "ran @p1", "from-p2"]⟩,
        ⟨9, ["ran @roblox-prelude", "ran @p1", "from-p2"],
          [("PRELUDE-SRC", "@roblox-prelude"), ("c1", "@p1"), ("c2", "@p2")]⟩) ∧
    (runCore (fun n => (n : Int)) allOkOracle bpW []
        ⟨targetW, some ⟨"b", "boot"⟩, some [⟨"c1", "p1"⟩], none⟩ =
      .ok (⟨true, 5, [], []⟩,
        ⟨10, [], [("PRELUDE-SRC", "@roblox-prelude"), ("b", "@boot"),
          ("c1", "@p1"), ("print(1)", "@main")]⟩) ∧
    (⟨9, [], [("PRELUDE-SRC", "@roblox-prelude"), ("b", "@boot"),
        ("c1", "@p1"), ("print(1)", "@main")]⟩ : PipeState).history =
      ("PRELUDE-SRC", "@roblox-prelude") ::
        (((some (⟨"b", "boot"⟩ : SimulationChunk)).toList ++
            ([⟨"c1", "p1"⟩] : List SimulationChunk) ++
          [targetW]).map (fun p => (p.code, "@" ++ p.chunkName)))) := by
  have h := pipeline_order_and_short_circuit (fun n => (n : Int)) bpW []
    setupFailOracle none ⟨6, [], [("PRELUDE-SRC", "@roblox-prelude")]⟩
    ⟨"boom!", "@roblox-prelude", none, none, none, Severity.error⟩
    targetW none (some preloadsW)
    preload2FailOracle none
    ⟨6, ["ran @roblox-prelude"], [("PRELUDE-SRC", "@roblox-prelude")]⟩
    ⟨6, ["ran @roblox-prelude"], [("PRELUDE-SRC", "@roblox-prelude")]⟩
    ⟨7, ["ran @roblox-prelude", "ran @p1"],
      [("PRELUDE-SRC", "@roblox-prelude"), ("c1", "@p1")]⟩
    ⟨8, ["ran @roblox-prelude", "ran @p1", "from-p2"],
      [("PRELUDE-SRC", "@roblox-prelude"), ("c1", "@p1"), ("c2", "@p2")]⟩
    none [⟨"c1", "p1"⟩] [⟨"c3", "p3"⟩] ⟨"c2", "p2"⟩ targetW
    [⟨"boom", "p2", some 1, none, none, Severity.error⟩]
    allOkOracle none ⟨6, [], [("PRELUDE-SRC", "@roblox-prelude")]⟩
    ⟨7, [], [("PRELUDE-SRC", "@roblox-prelude"), ("b", "@boot")]⟩
    ⟨8, [], [("PRELUDE-SRC", "@roblox-prelude"), ("b", "@boot"), ("c1", "@p1")]⟩
    ⟨9, [], [("PRELUDE-SRC", "@roblox-prelude"), ("b", "@boot"),
      ("c1", "@p1"), ("print(1)", "@main")]⟩
    (some ⟨"b", "boot"⟩) [⟨"c1", "p1"⟩] targetW
  exact ⟨h.1 rfl, h.2.1 rfl rfl rfl rfl (by decide), h.2.2 rfl rfl rfl rfl⟩

theorem takeWhile_append_stop (p : Char → Bool) :
    ∀ (l : List Char) (x : Char) (r : List Char),
      (∀ c ∈ l, p c = true) → p x = false →
      (l ++ x :: r).takeWhile p = l
  | [], x, r, _, hx => by simp [List.takeWhile_cons, hx]
  | c :: cs, x, r, hl, hx => by
    have hc : p c = true := hl c (List.mem_cons_self c cs)
    simp only [List.cons_append, List.takeWhile_cons, hc, if_true]
    rw [takeWhile_append_stop p cs x r (fun d hd => hl d (List.mem_cons_of_mem c hd)) hx]

theorem dropWhile_of_headD_false (p : Char → Bool) (l : List Char) (d : Char)
    (h : p (l.headD d) = false) : l.dropWhile p = l := by
  cases l with
  | nil => rfl
  | cons a t =>
    simp only [List.headD_cons] at h
    simp [List.dropWhile_cons, h]

theorem jsTrim_eq_self (l : List Char)
    (h1 : jsWhitespace (l.headD 'a') = false)
    (h2 : jsWhitespace (l.reverse.headD 'a') = false) : jsTrim l = l := by
  unfold jsTrim
  rw [dropWhile_of_headD_false _ _ _ h1, dropWhile_of_headD_false _ _ _ h2,
    List.reverse_reverse]

theorem splitNl_no_newline :
    ∀ (l : List Char), (∀ c ∈ l, ¬(c = '\n')) → splitNl l = [l]
  | [], _ => rfl
  | c :: t, h => by
    have ih := splitNl_no_newline t (fun x hx => h x (List.mem_cons_of_mem c hx))
    show (fun c acc =>
      match acc with
      | line :: rest => if c = '\n' then [] :: line :: rest else (c :: line) :: rest
      | [] => [[c]]) c (splitNl t) = [c :: t]
    rw [ih]
    simp [h c (List.mem_cons_self c t)]

theorem splitLines_no_newline (l : List Char) (h : ∀ c ∈ l, ¬(c = '\n')) :
    splitLines l = [l] := by
  unfold splitLines
  rw [splitNl_no_newline l h]
  rfl

theorem isDigit_ne_newline (c : Char) (h : c.isDigit = true) : ¬(c = '\n') := by
  intro hc
  rw [hc] at h
  exact absurd h (by decide)

theorem parseTail_shape (digits msg : List Char)
    (hd1 : digits ≠ []) (hd2 : ∀ ch ∈ digits, ch.isDigit = true)
    (hmh : jsWhitespace (msg.headD ' ') = false) :
    parseTail (':' :: (digits ++ ':' :: ' ' :: msg)) = some (digits, msg) := by
  have hstep : parseTail (':' :: (digits ++ ':' :: ' ' :: msg)) =
      (if ((digits ++ ':' :: ' ' :: msg).takeWhile Char.isDigit).isEmpty then none
       else
         match (digits ++ ':' :: ' ' :: msg).drop
             ((digits ++ ':' :: ' ' :: msg).takeWhile Char.isDigit).length with
         | ':' :: rest2 => some ((digits ++ ':' :: ' ' :: msg).takeWhile Char.isDigit,
             rest2.dropWhile jsWhitespace)
         | _ => none) := rfl
  rw [hstep]
  rw [takeWhile_append_stop Char.isDigit digits ':' (' ' :: msg) hd2 (by decide)]
  rw [List.isEmpty_eq_false.mpr hd1]
  rw [List.drop_left digits (':' :: ' ' :: msg)]
  show some (digits, List.dropWhile jsWhitespace (' ' :: msg)) = some (digits, msg)
  rw [List.dropWhile_cons]
  simp only [show jsWhitespace ' ' = true from rfl, if_true]
  rw [dropWhile_of_headD_false jsWhitespace msg ' ' hmh]

theorem matchShape1_quoted (ident digits msg : List Char)
    (hq : ∀ ch ∈ ident, ¬(ch = '"')) (hid : ident ≠ [])
    (hd1 : digits ≠ []) (hd2 : ∀ ch ∈ digits, ch.isDigit = true)
    (hmh : jsWhitespace (msg.headD ' ') = false) :
    matchShape1 (quotedErrorLine ident digits msg) =
      some ⟨some ident, none, digits, msg⟩ := by
  have hq2 : ∀ ch ∈ ident, (ch != '"') = true := by
    intro ch hch
    simpa using hq ch hch
  have hstep : matchShape1 (quotedErrorLine ident digits msg) =
      (if ((ident ++ '"' :: ']' :: ':' :: (digits ++ ':' :: ' ' :: msg)).takeWhile
            (fun c => c != '"')).isEmpty then none
       else
         match (ident ++ '"' :: ']' :: ':' :: (digits ++ ':' :: ' ' :: msg)).drop
             ((ident ++ '"' :: ']' :: ':' :: (digits ++ ':' :: ' ' :: msg)).takeWhile
               (fun c => c != '"')).length with
         | '"' :: ']' :: rest2 =>
           match parseTail rest2 with
           | some (d, m) =>
             some ⟨some ((ident ++ '"' :: ']' :: ':' :: (digits ++ ':' :: ' ' :: msg)).takeWhile
               (fun c => c != '"')), none, d, m⟩
           | none => none
         | _ => none) := rfl
  rw [hstep]
  rw [takeWhile_append_stop (fun c => c != '"') ident '"'
    (']' :: ':' :: (digits ++ ':' :: ' ' :: msg)) hq2 (by decide)]
  rw [List.isEmpty_eq_false.mpr hid]
  rw [List.drop_left ident ('"' :: ']' :: ':' :: (digits ++ ':' :: ' ' :: msg))]
  show (match parseTail (':' :: (digits ++ ':' :: ' ' :: msg)) with
        | some (d, m) => some (⟨some ident, none, d, m⟩ : RegexMatch)
        | none => none) = some ⟨some ident, none, digits, msg⟩
  rw [parseTail_shape digits msg hd1 hd2 hmh]

/-- C8: user chunks are compiled under the identity `'@' + chunkName` (first
conjunct: the load history records that identity), and when the Translator
matches the quoted-identity error shape it strips one leading `@` from the
captured identity, so the diagnostic for a chunk whose compile identity was
`'@' + name` carries chunkName exactly `name` — no sigil leaks into
user-facing diagnostics. -/
theorem chunk_identity_sigil_round_trip (oracle : LuaOracle)
    (st st2 : PipeState) (c : SimulationChunk) (errs : List SimulationError)
    (name digits msg : List Char) (fb : String) :
    (executeChunk oracle st c = .ok (st2, errs) →
      st2.history = st.history ++ [(c.code, "@" ++ c.chunkName)]) ∧
    ((∀ ch ∈ name, ¬(ch = '"') ∧ ¬(ch = '\n')) →
      digits ≠ [] → (∀ ch ∈ digits, ch.isDigit = true) →
      msg ≠ [] → (∀ ch ∈ msg, ¬(ch = '\n')) →
      jsWhitespace (msg.headD ' ') = false →
      jsWhitespace (msg.reverse.headD ' ') = false →
      extractErrors (String.mk (quotedErrorLine ('@' :: name) digits msg)) fb =
        [⟨String.mk msg, String.mk name, some (parseNatDigits digits), none,
          none, Severity.error⟩]) := by
  constructor
  · intro h
    exact (executeChunk_ok_shape _ _ _ _ _ h).1
  · intro hname hd1 hd2 hm1 hmn hmh hml
    set raw := quotedErrorLine ('@' :: name) digits msg with hraw
    have hrevhead : raw.reverse.headD 'a' = msg.reverse.headD 'a' := by
      rw [hraw]
      unfold quotedErrorLine
      cases hm : msg.reverse with
      | nil =>
        exact absurd (by simpa using hm) hm1
      | cons a t =>
        simp [List.reverse_append, hm]
    have hmlA : jsWhitespace (msg.reverse.headD 'a') = false := by
      cases hm : msg.reverse with
      | nil => exact rfl
      | cons a t =>
        rw [hm] at hml
        simp only [List.headD_cons] at hml ⊢
        exact hml
    have htrim : jsTrim raw = raw := by
      apply jsTrim_eq_self
      · rw [hraw]
        rfl
      · rw [hrevhead]
        exact hmlA
    have hnl : ∀ ch ∈ raw, ¬(ch = '\n') := by
      rw [hraw]
      unfold quotedErrorLine
      refine List.forall_mem_append.mpr ⟨?_, ?_⟩
      · refine List.forall_mem_append.mpr ⟨?_, ?_⟩
        · decide
        · intro ch hch
          rcases List.mem_cons.mp hch with h | h
          · rw [h]; decide
          · exact (hname ch h).2
      · intro ch hch
        rcases List.mem_cons.mp hch with h | hch2
        · rw [h]; decide
        rcases List.mem_cons.mp hch2 with h | hch3
        · rw [h]; decide
        rcases List.mem_cons.mp hch3 with h | hch4
        · rw [h]; decide
        rcases List.mem_append.mp hch4 with h | hch5
        · exact isDigit_ne_newline ch (hd2 ch h)
        rcases List.mem_cons.mp hch5 with h | hch6
        · rw [h]; decide
        rcases List.mem_cons.mp hch6 with h | h
        · rw [h]; decide
        · exact hmn ch h
    have hsplit : splitLines raw = [raw] := splitLines_no_newline raw hnl
    have hmatch : execPattern raw = some ⟨some ('@' :: name), none, digits, msg⟩ := by
      unfold execPattern
      rw [hraw]
      rw [matchShape1_quoted ('@' :: name) digits msg ?hq (by simp) hd1 hd2 hmh]
      · rfl
      case hq =>
        intro ch hch
        rcases List.mem_cons.mp hch with h | h
        · rw [h]; decide
        · exact (hname ch h).1
    have hmsgtrim : jsTrim msg = msg := by
      apply jsTrim_eq_self
      · cases msg with
        | nil => rfl
        | cons a t => exact hmh
      · exact hmlA
    show extractErrorsCore raw fb = _
    unfold extractErrorsCore
    dsimp only
    rw [htrim]
    rw [show raw.isEmpty = false from by rw [hraw]; rfl]
    unfold headlineOf stackOf
    rw [hsplit]
    rw [show ([raw] : List (List Char)).headD [] = raw from rfl]
    rw [hmatch]
    dsimp only
    rw [hmsgtrim]
    rw [List.isEmpty_eq_false.mpr hm1]
    rfl

/-- Witness for C8: a concrete chunk execution records the `@`-prefixed
compile identity, and the Translator maps the quoted headline for identity
`@worker` back to chunkName `worker`. -/
theorem chunk_identity_sigil_round_trip_witness :
    ((⟨6, [], [("print(1)", "@main")]⟩ : PipeState).history =
      (⟨5, [], []⟩ : PipeState).history ++
        [(targetW.code, "@" ++ targetW.chunkName)]) ∧
    extractErrors (String.mk (quotedErrorLine ('@' :: "worker".data) "42".data
        "oops".data)) "fb" =
      [⟨String.mk "oops".data, String.mk "worker".data,
        some (parseNatDigits "42".data), none, none, Severity.error⟩] := by
  have h := chunk_identity_sigil_round_trip allOkOracle ⟨5, [], []⟩
    ⟨6, [], [("print(1)", "@main")]⟩ targetW [] "worker".data "42".data
    "oops".data "fb"
  exact ⟨h.1 rfl, h.2 (by decide) (by decide) (by decide) (by decide)
    (by decide) (by decide) (by decide)⟩
